import Mathlib

/-!
Shallow embedding of the interaction-event classification engine of the
ClaraVerse computer-use recorder (Go sources under `src/`), together with
proofs about the individual trackers: the text-selection tracker, the
hotkey detector, the drag-drop tracker, the text-input manager, the
browser-tab tracker and the dispatch rate gate.

Conventions of the embedding:
* Go `time.Time` / `time.Duration` values are modelled as natural-number
  millisecond timestamps; `time.Since(t)` at the current instant `now`
  becomes `now - t` (truncated subtraction, matching the non-negative
  durations a monotonic clock produces).  The zero `time.Time{}` sentinel
  of the drag tracker is modelled as the timestamp `0`.
* Euclidean-distance comparisons `math.Sqrt(dx*dx+dy*dy) < c` on integer
  coordinates are modelled by the exact equivalent `dx^2 + dy^2 < c^2`;
  for the integer thresholds involved (5, 10, 50) the float comparison in
  the Go code decides exactly this predicate.
* External collaborators that the spec places out of scope (the
  selected-text/current-field-text content source) are passed in as
  explicit arguments of the completing entry point.
* Go strings are Lean `String`s; `strings.Contains` / `strings.ToLower` /
  `strings.TrimSpace` are modelled on the character level (`goContains`,
  `goToLower`, `goTrimSpace`).
-/

/-- Screen position, `type Position struct { X, Y int32 }`.  Coordinates are
modelled as unbounded integers (screen coordinates never approach the
`int32` bounds, and no tracker arithmetic wraps them). -/
structure Position where
  X : Int
  Y : Int
deriving DecidableEq, Repr

/-- `type MouseButton string` with its four constants. -/
inductive MouseButton where
  | left
  | right
  | middle
  | none
deriving DecidableEq, Repr

/-- Snapshot of the focused UI element (`type UIElement struct`), restricted
to the fields the trackers in this development read. -/
structure UIElement where
  Role : String
  Name : String
  ProcessID : Nat
  WindowTitle : String
  ApplicationName : String
deriving DecidableEq, Repr

/-- Squared Euclidean distance between two positions.  `calculateDistance`
in the Go trackers returns `math.Sqrt (dx*dx + dy*dy)`; every use compares
it against an integer constant `c`, which is exactly `distSq p q < c^2`
(resp. `≤`, `>`) on the integer coordinates. -/
def distSq (p q : Position) : Int :=
  (q.X - p.X) ^ 2 + (q.Y - p.Y) ^ 2

/-- Substring occurrence on character lists: `pat` occurs in `l`
(possibly empty `pat`, which always occurs). -/
def containsList : List Char → List Char → Bool
  | [], pat => pat.isEmpty
  | l@(_ :: rest), pat => pat.isPrefixOf l || containsList rest pat

/-- Go `strings.Contains(s, pat)`. -/
def goContains (s pat : String) : Bool :=
  containsList s.toList pat.toList

/-- Go `strings.ToLower` on the character level (the inputs the trackers
lowercase are ASCII role/name/title words). -/
def goToLower (s : String) : String :=
  (s.toList.map Char.toLower).asString

/-- Go `strings.TrimSpace` on the character level. -/
def goTrimSpace (s : String) : String :=
  (((s.toList.dropWhile Char.isWhitespace).reverse.dropWhile
      Char.isWhitespace).reverse).asString

/- ------------------------------------------------------------------
Text Selection Tracker (`src/text_selection_tracker.go`)
------------------------------------------------------------------ -/

/-- `type SelectionMethod string` constants. -/
inductive SelectionMethod where
  | MouseDrag
  | DoubleClick
  | TripleClick
  | KeyboardShortcut
  | ContextMenu
deriving DecidableEq, Repr

/-- `TextSelectionEvent` (metadata omitted; its timestamp is not examined by
any claim). `SelectionLength` is `uint32(len(selectedText))`, a byte count. -/
structure TextSelectionEvent where
  SelectedText : String
  StartPosition : Position
  EndPosition : Position
  SelectionMethod : SelectionMethod
  SelectionLength : Nat
deriving DecidableEq, Repr

/-- Mutable state of `TextSelectionTracker` (callback and mutex omitted). -/
structure TextSelectionTracker where
  IsSelecting : Bool
  SelectionStartPos : Position
  SelectionStartTime : Nat
  LastMousePos : Position
  LastClickTime : Nat
  LastClickPos : Position
  ClickCount : Nat
deriving DecidableEq, Repr

/-- `NewTextSelectionTracker`: zero-valued fields, `ClickCount = 0`. -/
def NewTextSelectionTracker : TextSelectionTracker :=
  ⟨false, ⟨0, 0⟩, 0, ⟨0, 0⟩, 0, ⟨0, 0⟩, 0⟩

/-- `isCloseClick`: previous click within 500 ms and within 5 px. -/
def TextSelectionTracker.isCloseClick (tst : TextSelectionTracker)
    (position : Position) (clickTime : Nat) : Bool :=
  if 500 < clickTime - tst.LastClickTime then false
  else distSq tst.LastClickPos position ≤ 25

/-- `HandleMouseDown`: primary button only; bump or reset the click count,
record the click, start a potential selection. -/
def TextSelectionTracker.HandleMouseDown (tst : TextSelectionTracker)
    (position : Position) (button : MouseButton) (now : Nat) :
    TextSelectionTracker :=
  if button ≠ .left then tst
  else
    let clickCount := if tst.isCloseClick position now then tst.ClickCount + 1 else 1
    { tst with
      ClickCount := clickCount
      LastClickTime := now
      LastClickPos := position
      IsSelecting := true
      SelectionStartPos := position
      SelectionStartTime := now
      LastMousePos := position }

/-- `HandleMouseMove`: record the pointer while a selection is in progress. -/
def TextSelectionTracker.HandleMouseMove (tst : TextSelectionTracker)
    (position : Position) : TextSelectionTracker :=
  if tst.IsSelecting then { tst with LastMousePos := position } else tst

/-- `HandleMouseUp`: complete a selection.  `selectedText` is what the
external content source (`getSelectedText`) returns at this instant; the
shipped placeholder always returns the empty string, and the spec treats
retrieval as a collaborator, so it is an argument here.  Returns the new
state and the emitted event, if any. -/
def TextSelectionTracker.HandleMouseUp (tst : TextSelectionTracker)
    (position : Position) (button : MouseButton) (selectedText : String) :
    TextSelectionTracker × Option TextSelectionEvent :=
  if button ≠ .left then (tst, Option.none)
  else if !tst.IsSelecting then (tst, Option.none)
  else
    let tst := { tst with IsSelecting := false }
    let d := distSq tst.SelectionStartPos position
    -- minSelectionDistance = 5.0 px, hence the squared bound 25
    if d < 25 ∧ tst.ClickCount ≤ 1 then (tst, Option.none)
    else
      -- the `switch tst.ClickCount` of the source, as an if-chain
      let method? : Option SelectionMethod :=
        if tst.ClickCount = 2 then some .DoubleClick
        else if tst.ClickCount = 3 then some .TripleClick
        else if d ≥ 25 then some .MouseDrag else Option.none
      match method? with
      | Option.none => (tst, Option.none)
      | some method =>
          if selectedText = "" then (tst, Option.none)
          else
            (tst, some ⟨selectedText, tst.SelectionStartPos, position, method,
                        selectedText.utf8ByteSize⟩)

/- ------------------------------------------------------------------
Drag-Drop Tracker (`src/drag_drop_tracker.go`)
------------------------------------------------------------------ -/

/-- `DragDropEvent`, restricted to the fields this development reasons
about.  The `Content`/`DataType` fields (filled by `getDragContent` from
the out-of-scope clipboard collaborator) and the metadata are omitted. -/
structure DragDropEvent where
  StartPosition : Position
  EndPosition : Position
  SourceElement : Option UIElement
  Success : Bool
deriving DecidableEq, Repr

/-- Mutable state of `DragDropTracker` (callback and mutex omitted).
`DragStartTime = 0` models the zero `time.Time{}` sentinel tested by
`IsZero()`. -/
structure DragDropTracker where
  IsDragging : Bool
  DragStartPos : Position
  DragStartTime : Nat
  DragStartElement : Option UIElement
  LastDragPos : Position
  MinDragDistance : Nat
deriving DecidableEq, Repr

/-- `NewDragDropTracker`: minimum drag distance 10 px. -/
def NewDragDropTracker : DragDropTracker :=
  ⟨false, ⟨0, 0⟩, 0, Option.none, ⟨0, 0⟩, 10⟩

/-- `clearDragState`: zero every per-drag field. -/
def DragDropTracker.clearDragState (ddt : DragDropTracker) : DragDropTracker :=
  { ddt with
    IsDragging := false
    DragStartTime := 0
    DragStartElement := Option.none
    DragStartPos := ⟨0, 0⟩
    LastDragPos := ⟨0, 0⟩ }

/-- `isDropTarget`: the element's lowercased role equals or contains a known
drop-target role, or its lowercased name contains a drop keyword. -/
def DragDropTracker.isDropTarget (element : Option UIElement) : Bool :=
  match element with
  | Option.none => false
  | some element =>
    let dropTargetRoles := ["list", "listbox", "tree", "treeitem",
      "document", "application", "pane", "window",
      "textbox", "editbox", "richedit",
      "button", "dropdownbutton"]
    let elementRole := goToLower element.Role
    if dropTargetRoles.any (fun role => elementRole == role || goContains elementRole role) then
      true
    else
      let elementName := goToLower element.Name
      let dropKeywords := ["drop", "upload", "import", "attach", "browse",
        "file", "folder", "directory"]
      dropKeywords.any (fun keyword => goContains elementName keyword)

/-- `isSuccessfulDrop`: any of the three heuristics — recognized drop
target, distance > 50 px (squared bound 2500), duration > 500 ms. -/
def DragDropTracker.isSuccessfulDrop (ddt : DragDropTracker)
    (dropPosition : Position) (targetElement : Option UIElement) (now : Nat) : Bool :=
  if targetElement.isSome && DragDropTracker.isDropTarget targetElement then true
  else if 2500 < distSq ddt.DragStartPos dropPosition then true
  else if 500 < now - ddt.DragStartTime then true
  else false

/-- `HandleMouseDown`: primary button starts a potential (unconfirmed)
drag. -/
def DragDropTracker.HandleMouseDown (ddt : DragDropTracker)
    (position : Position) (button : MouseButton) (element : Option UIElement)
    (now : Nat) : DragDropTracker :=
  if button ≠ .left then ddt
  else
    { ddt with
      DragStartPos := position
      DragStartTime := now
      DragStartElement := element
      LastDragPos := position
      IsDragging := false }

/-- `HandleMouseMove`: track the pointer; confirm the drag once the
distance from the start reaches `MinDragDistance`. -/
def DragDropTracker.HandleMouseMove (ddt : DragDropTracker)
    (position : Position) : DragDropTracker :=
  if ddt.DragStartTime = 0 then ddt
  else
    let ddt := { ddt with LastDragPos := position }
    if !ddt.IsDragging && distSq ddt.DragStartPos position ≥ (ddt.MinDragDistance : Int) ^ 2 then
      { ddt with IsDragging := true }
    else ddt

/-- `HandleMouseUp`: complete the drag; in every primary-button case the
per-drag state is cleared afterwards. -/
def DragDropTracker.HandleMouseUp (ddt : DragDropTracker)
    (position : Position) (button : MouseButton) (element : Option UIElement)
    (now : Nat) : DragDropTracker × Option DragDropEvent :=
  if button ≠ .left then (ddt, Option.none)
  else if !ddt.IsDragging || ddt.DragStartTime = 0 then
    (ddt.clearDragState, Option.none)
  else if distSq ddt.DragStartPos position < (ddt.MinDragDistance : Int) ^ 2 then
    (ddt.clearDragState, Option.none)
  else
    let dropSuccess := ddt.isSuccessfulDrop position element now
    (ddt.clearDragState,
     some ⟨ddt.DragStartPos, position, ddt.DragStartElement, dropSuccess⟩)

/-- `HandleKeyPress` of the drag tracker: Escape cancels an active drag. -/
def DragDropTracker.HandleKeyPress (ddt : DragDropTracker)
    (keyCode : Nat) (isKeyDown : Bool) : DragDropTracker :=
  if keyCode = 0x1B ∧ isKeyDown = true then
    if ddt.IsDragging then ddt.clearDragState else ddt
  else ddt

/- ------------------------------------------------------------------
Hotkey Detector (`src/hotkey_detector.go`)
------------------------------------------------------------------ -/

/-- Virtual-key constants used by the pattern catalog. -/
def VK_CONTROL : Nat := 0x11
def VK_MENU : Nat := 0x12
def VK_SHIFT : Nat := 0x10
def VK_LWIN : Nat := 0x5B

/-- `HotkeyPattern`: a cataloged combination. -/
structure HotkeyPattern where
  Keys : List Nat
  Combination : String
  Action : String
  IsGlobal : Bool
  Category : String
deriving DecidableEq, Repr

/-- `HotkeyEvent` (metadata omitted). -/
structure HotkeyEvent where
  Combination : String
  Action : String
  IsGlobal : Bool
deriving DecidableEq, Repr

/-- Mutable state of `HotkeyDetector`.  The Go `PressedKeys` map (keys
unique, values always `true`) is modelled as a duplicate-free list of key
codes; `KeyPressOrder` and `LastKeyTime` as in the source.  The catalog,
callback, `MaxKeyDelay` (a constant 500 ms) and mutex are not state. -/
structure HotkeyDetector where
  PressedKeys : List Nat
  KeyPressOrder : List Nat
  LastKeyTime : Nat
deriving DecidableEq, Repr

/-- `NewHotkeyDetector`: empty key state. -/
def NewHotkeyDetector : HotkeyDetector := ⟨[], [], 0⟩

/-- `initializeHotkeyPatterns`: the static catalog, in source order. -/
def initializeHotkeyPatterns : List HotkeyPattern :=
  [⟨[VK_CONTROL, 0x53], "Ctrl+S", "Save", false, "File"⟩,
   ⟨[VK_CONTROL, 0x4F], "Ctrl+O", "Open", false, "File"⟩,
   ⟨[VK_CONTROL, 0x4E], "Ctrl+N", "New", false, "File"⟩,
   ⟨[VK_CONTROL, 0x50], "Ctrl+P", "Print", false, "File"⟩,
   ⟨[VK_CONTROL, 0x43], "Ctrl+C", "Copy", false, "Edit"⟩,
   ⟨[VK_CONTROL, 0x56], "Ctrl+V", "Paste", false, "Edit"⟩,
   ⟨[VK_CONTROL, 0x58], "Ctrl+X", "Cut", false, "Edit"⟩,
   ⟨[VK_CONTROL, 0x5A], "Ctrl+Z", "Undo", false, "Edit"⟩,
   ⟨[VK_CONTROL, 0x59], "Ctrl+Y", "Redo", false, "Edit"⟩,
   ⟨[VK_CONTROL, 0x41], "Ctrl+A", "Select All", false, "Edit"⟩,
   ⟨[VK_CONTROL, 0x46], "Ctrl+F", "Find", false, "Edit"⟩,
   ⟨[VK_MENU, 0x09], "Alt+Tab", "Switch Window", true, "Window"⟩,
   ⟨[VK_MENU, 0x70], "Alt+F4", "Close Window", false, "Window"⟩,
   ⟨[VK_LWIN, 0x44], "Win+D", "Show Desktop", true, "Window"⟩,
   ⟨[VK_LWIN, 0x4C], "Win+L", "Lock Screen", true, "System"⟩,
   ⟨[VK_CONTROL, 0x54], "Ctrl+T", "New Tab", false, "Browser"⟩,
   ⟨[VK_CONTROL, 0x57], "Ctrl+W", "Close Tab", false, "Browser"⟩,
   ⟨[VK_CONTROL, 0x09], "Ctrl+Tab", "Next Tab", false, "Browser"⟩,
   ⟨[VK_CONTROL, VK_SHIFT, 0x09], "Ctrl+Shift+Tab", "Previous Tab", false, "Browser"⟩,
   ⟨[VK_CONTROL, 0x52], "Ctrl+R", "Refresh", false, "Browser"⟩,
   ⟨[VK_CONTROL, 0x4C], "Ctrl+L", "Address Bar", false, "Browser"⟩,
   ⟨[VK_LWIN, 0x31], "Win+1", "Launch App 1", true, "Launcher"⟩,
   ⟨[VK_LWIN, 0x32], "Win+2", "Launch App 2", true, "Launcher"⟩,
   ⟨[VK_LWIN, 0x33], "Win+3", "Launch App 3", true, "Launcher"⟩,
   ⟨[VK_LWIN, 0x34], "Win+4", "Launch App 4", true, "Launcher"⟩,
   ⟨[VK_LWIN, 0x35], "Win+5", "Launch App 5", true, "Launcher"⟩,
   ⟨[0x70], "F1", "Help", false, "Function"⟩,
   ⟨[0x73], "F4", "Address Bar", false, "Function"⟩,
   ⟨[0x74], "F5", "Refresh", false, "Function"⟩,
   ⟨[0x7A], "F11", "Full Screen", false, "Function"⟩,
   ⟨[VK_CONTROL, 0x42], "Ctrl+B", "Bold", false, "Format"⟩,
   ⟨[VK_CONTROL, 0x49], "Ctrl+I", "Italic", false, "Format"⟩,
   ⟨[VK_CONTROL, 0x55], "Ctrl+U", "Underline", false, "Format"⟩,
   ⟨[VK_MENU, 0x25], "Alt+Left", "Back", false, "Navigation"⟩,
   ⟨[VK_MENU, 0x27], "Alt+Right", "Forward", false, "Navigation"⟩,
   ⟨[VK_CONTROL, 0x24], "Ctrl+Home", "Go to Start", false, "Navigation"⟩,
   ⟨[VK_CONTROL, 0x23], "Ctrl+End", "Go to End", false, "Navigation"⟩,
   ⟨[VK_CONTROL, VK_SHIFT, 0x1B], "Ctrl+Shift+Esc", "Task Manager", true, "System"⟩,
   ⟨[VK_CONTROL, VK_MENU, 0x2E], "Ctrl+Alt+Delete", "Security Screen", true, "System"⟩,
   ⟨[0x2C], "PrintScreen", "Screenshot", true, "System"⟩]

/-- Insert a key into a ≤-sorted list of key codes. -/
def insortKey (k : Nat) : List Nat → List Nat
  | [] => [k]
  | x :: xs => if k ≤ x then k :: x :: xs else x :: insortKey k xs

/-- Ascending sort of a key-code list (`sort.Slice` in the source; the
algorithm differs, the sorted result is the same). -/
def sortKeys (l : List Nat) : List Nat := l.foldr insortKey []

/-- `keysMatch`: same number of keys and equal once both sides are
sorted (order-independent comparison). -/
def keysMatch (pressedKeys patternKeys : List Nat) : Bool :=
  pressedKeys.length == patternKeys.length &&
    sortKeys pressedKeys == sortKeys patternKeys

/-- `clearState`: drop all held-key tracking (the last-key time is not
touched by the source either). -/
def HotkeyDetector.clearState (hd : HotkeyDetector) : HotkeyDetector :=
  { hd with PressedKeys := [], KeyPressOrder := [] }

/-- `checkForHotkeys`: with ≥ 2 held keys, the first catalog pattern whose
key set matches the held set fires; on a match the event is emitted and the
state cleared. -/
def HotkeyDetector.checkForHotkeys (hd : HotkeyDetector) :
    HotkeyDetector × Option HotkeyEvent :=
  if hd.PressedKeys.length < 2 then (hd, Option.none)
  else
    match initializeHotkeyPatterns.find? (fun pattern => keysMatch hd.PressedKeys pattern.Keys) with
    | some pattern =>
        (hd.clearState, some ⟨pattern.Combination, pattern.Action, pattern.IsGlobal⟩)
    | Option.none => (hd, Option.none)

/-- `HandleKeyPress`: key-down of a fresh key inserts it into the held set
and press order and attempts a match; key-up removes it, clearing all state
when the held set empties or more than 500 ms (`MaxKeyDelay`) have passed
since the last key-down. -/
def HotkeyDetector.HandleKeyPress (hd : HotkeyDetector)
    (keyCode : Nat) (isKeyDown : Bool) (now : Nat) :
    HotkeyDetector × Option HotkeyEvent :=
  if isKeyDown then
    if keyCode ∈ hd.PressedKeys then (hd, Option.none)
    else
      HotkeyDetector.checkForHotkeys
        { PressedKeys := keyCode :: hd.PressedKeys
          KeyPressOrder := hd.KeyPressOrder ++ [keyCode]
          LastKeyTime := now }
  else
    if keyCode ∈ hd.PressedKeys then
      let hd := { hd with
        PressedKeys := hd.PressedKeys.erase keyCode
        KeyPressOrder := hd.KeyPressOrder.erase keyCode }
      if hd.PressedKeys.isEmpty || 500 < now - hd.LastKeyTime then
        (hd.clearState, Option.none)
      else (hd, Option.none)
    else (hd, Option.none)

/-- Run a list of `HandleKeyPress` calls `(keyCode, isKeyDown, now)`,
collecting the emitted events in order. -/
def HotkeyDetector.run (hd : HotkeyDetector) :
    List (Nat × Bool × Nat) → HotkeyDetector × List HotkeyEvent
  | [] => (hd, [])
  | call :: rest =>
    let s := hd.HandleKeyPress call.1 call.2.1 call.2.2
    let r := s.1.run rest
    (r.1, s.2.toList ++ r.2)

/- ------------------------------------------------------------------
Browser Tab Tracker (`src/enhanced_clipboard.go`, browser part)
------------------------------------------------------------------ -/

/-- `type TabAction string` constants. -/
inductive TabAction where
  | Created
  | Switched
  | Closed
  | Moved
  | Duplicated
  | Pinned
  | Refreshed
deriving DecidableEq, Repr

/-- `type TabNavigationMethod string` constants. -/
inductive TabNavigationMethod where
  | KeyboardShortcut
  | TabClick
  | NewTabButton
  | CloseButton
  | ContextMenu
  | AddressBar
  | LinkNewTab
  | Other
deriving DecidableEq, Repr

/-- `BrowserTabNavigationEvent`, restricted to the fields this development
reasons about (the title fields, browser label, back/forward flag and
metadata are not examined by any claim). -/
structure BrowserTabNavigationEvent where
  Action : TabAction
  Method : TabNavigationMethod
  ToURL : String
  FromURL : String
  PageDwellTimeMs : Nat
deriving DecidableEq, Repr

/-- `BrowserState`: per-process browser tracking state. -/
structure BrowserState where
  ProcessID : Nat
  WindowTitle : String
  CurrentURL : String
  LastURLChange : Nat
  TabCount : Nat
  LastTabAction : Nat
  RecentHotkeys : List String
  RecentClicks : List Position
deriving DecidableEq, Repr

/-- The `BrowserStates` map `ProcessID → BrowserState`, as an association
list. -/
def BrowserStates := List (Nat × BrowserState)

/-- Map lookup. -/
def lookupBrowserState (states : BrowserStates) (processID : Nat) :
    Option BrowserState :=
  match states.find? (fun p => p.1 == processID) with
  | some p => some p.2
  | Option.none => Option.none

/-- Map store: replace the entry for `processID`, or add one. -/
def storeBrowserState (states : BrowserStates) (processID : Nat)
    (bs : BrowserState) : BrowserStates :=
  match states with
  | [] => [(processID, bs)]
  | p :: rest =>
    if p.1 = processID then (processID, bs) :: rest
    else p :: storeBrowserState rest processID bs

/-- Character class `\s` of the Go regexp package: `[\t\n\f\r ]`. -/
def goSpace (c : Char) : Bool :=
  c = '\t' || c = '\n' || c = '\x0c' || c = '\r' || c = ' '

/-- Stop set of the per-browser URL patterns `https?://[^\s\-—]+`. -/
def urlStopMain (c : Char) : Bool := goSpace c || c = '-' || c = '—'

/-- Stop set of the fallback pattern `https?://[^\s\-—\|\[\]]+`. -/
def urlStopFallback (c : Char) : Bool :=
  urlStopMain c || c = '|' || c = '[' || c = ']'

/-- Leftmost match of `https?://⟨run of non-stop characters⟩+` in a
character list: at each position try the literal scheme prefix and then a
maximal non-empty run, else advance one character — exactly the leftmost
match the Go regexp returns for these patterns. -/
def findURL (stop : Char → Bool) : List Char → Option (List Char)
  | [] => Option.none
  | c :: rest =>
    if "https://".toList.isPrefixOf (c :: rest) then
      let run := ((c :: rest).drop 8).takeWhile (fun x => !stop x)
      if run.isEmpty then findURL stop rest
      else some ("https://".toList ++ run)
    else if "http://".toList.isPrefixOf (c :: rest) then
      let run := ((c :: rest).drop 7).takeWhile (fun x => !stop x)
      if run.isEmpty then findURL stop rest
      else some ("http://".toList ++ run)
    else findURL stop rest

/-- Go `strings.TrimRight(s, cutset)`. -/
def goTrimRight (s : String) (cutset : List Char) : String :=
  ((s.toList.reverse.dropWhile (fun c => c ∈ cutset)).reverse).asString

/-- `extractURL`: try the per-browser patterns (all four are the identical
regexp `https?://[^\s\-—]+`, so one scan models the map iteration), then
the fallback pattern with trailing-punctuation trimming. -/
def extractURL (windowTitle : String) : String :=
  if windowTitle = "" then ""
  else
    match findURL urlStopMain windowTitle.toList with
    | some cs => cs.asString
    | Option.none =>
      match findURL urlStopFallback windowTitle.toList with
      | some cs => goTrimRight cs.asString ['.', ',', ';', ')']
      | Option.none => ""

/-- `isBrowserWindow`: lowercased application name or window title contains
a known browser name. -/
def isBrowserWindow (element : UIElement) : Bool :=
  let appName := goToLower element.ApplicationName
  let windowTitle := goToLower element.WindowTitle
  let browsers := ["chrome", "firefox", "edge", "safari", "opera", "brave", "vivaldi"]
  browsers.any (fun browser => goContains appName browser || goContains windowTitle browser)

/-- The four hotkey groups of `determineNavigationMethod`'s switch. -/
def newTabHotkeys : List String := ["Ctrl+T", "Ctrl+Shift+T"]
def closeTabHotkeys : List String := ["Ctrl+W", "Ctrl+F4"]
def tabCycleHotkeys : List String :=
  ["Ctrl+Tab", "Ctrl+Shift+Tab", "Ctrl+1", "Ctrl+2", "Ctrl+3", "Ctrl+4",
   "Ctrl+5", "Ctrl+6", "Ctrl+7", "Ctrl+8", "Ctrl+9"]
def addressBarHotkeys : List String := ["Ctrl+L", "F6"]

/-- One arm of the switch inside `determineNavigationMethod`: the method a
single buffered hotkey indicates, if any. -/
def classifyNavHotkey (hotkey : String) : Option TabNavigationMethod :=
  if hotkey ∈ newTabHotkeys then some .NewTabButton
  else if hotkey ∈ closeTabHotkeys then some .CloseButton
  else if hotkey ∈ tabCycleHotkeys then some .KeyboardShortcut
  else if hotkey ∈ addressBarHotkeys then some .AddressBar
  else Option.none

/-- `determineNavigationMethod`: walk the recent-hotkey buffer in order and
return the method of the first hotkey the switch recognizes; otherwise fall
back to tab-click when recent clicks exist, else other. -/
def determineNavigationMethod (browserState : BrowserState) : TabNavigationMethod :=
  match browserState.RecentHotkeys.findSome? classifyNavHotkey with
  | some method => method
  | Option.none =>
    if browserState.RecentClicks.length > 0 then .TabClick else .Other

/-- Modelled from the spec's words, for comparison with
`determineNavigationMethod`: check the new-tab patterns against the whole
buffer first, then the close-tab patterns, then tab-cycle, then
address-bar, "in that priority order", with the same fallbacks. -/
def navMethodSpecPriority (browserState : BrowserState) : TabNavigationMethod :=
  if browserState.RecentHotkeys.any (fun h => h ∈ newTabHotkeys) then .NewTabButton
  else if browserState.RecentHotkeys.any (fun h => h ∈ closeTabHotkeys) then .CloseButton
  else if browserState.RecentHotkeys.any (fun h => h ∈ tabCycleHotkeys) then .KeyboardShortcut
  else if browserState.RecentHotkeys.any (fun h => h ∈ addressBarHotkeys) then .AddressBar
  else if browserState.RecentClicks.length > 0 then .TabClick
  else .Other

/-- `isBrowserNavigationHotkey`: the fixed allow-list. -/
def isBrowserNavigationHotkey (combination : String) : Bool :=
  combination ∈
    ["Ctrl+T", "Ctrl+Shift+T", "Ctrl+W", "Ctrl+F4",
     "Ctrl+Tab", "Ctrl+Shift+Tab", "Ctrl+L", "F6",
     "Ctrl+1", "Ctrl+2", "Ctrl+3", "Ctrl+4", "Ctrl+5",
     "Ctrl+6", "Ctrl+7", "Ctrl+8", "Ctrl+9",
     "Ctrl+R", "F5", "Ctrl+F5", "Ctrl+Shift+R",
     "Alt+Left", "Alt+Right", "Backspace"]

/-- `HandleWindowChange`: seed per-process state on first sight of a
browser window; afterwards emit a navigation event whenever a non-empty
extracted URL differs from the stored one. -/
def HandleWindowChange (states : BrowserStates) (element : Option UIElement)
    (now : Nat) : BrowserStates × Option BrowserTabNavigationEvent :=
  match element with
  | Option.none => (states, Option.none)
  | some element =>
    if !isBrowserWindow element then (states, Option.none)
    else
      let processID := element.ProcessID
      let windowTitle := element.WindowTitle
      let currentURL := extractURL windowTitle
      match lookupBrowserState states processID with
      | Option.none =>
        (storeBrowserState states processID
          ⟨processID, windowTitle, currentURL, now, 1, 0, [], []⟩, Option.none)
      | some browserState =>
        if currentURL ≠ "" ∧ currentURL ≠ browserState.CurrentURL then
          let event : BrowserTabNavigationEvent :=
            ⟨.Switched, determineNavigationMethod browserState,
             currentURL, browserState.CurrentURL, now - browserState.LastURLChange⟩
          let browserState :=
            { browserState with
              CurrentURL := currentURL
              WindowTitle := windowTitle
              LastURLChange := now
              LastTabAction := now }
          (storeBrowserState states processID browserState, some event)
        else
          let browserState :=
            { browserState with
              WindowTitle := windowTitle
              CurrentURL := if currentURL ≠ "" then currentURL else browserState.CurrentURL }
          (storeBrowserState states processID browserState, Option.none)

/-- `HandleHotkey`: append a recognized navigation hotkey to the bounded
(capacity 5) recent-hotkey buffer of an already-seeded browser process. -/
def HandleHotkey (states : BrowserStates) (combination : String)
    (activeElement : Option UIElement) : BrowserStates :=
  match activeElement with
  | Option.none => states
  | some element =>
    if !isBrowserWindow element then states
    else if isBrowserNavigationHotkey combination then
      match lookupBrowserState states element.ProcessID with
      | some browserState =>
        let hotkeys := browserState.RecentHotkeys ++ [combination]
        let hotkeys := if hotkeys.length > 5 then hotkeys.drop 1 else hotkeys
        storeBrowserState states element.ProcessID
          { browserState with RecentHotkeys := hotkeys }
      | Option.none => states
    else states

/-- `HandleClick`: append a click to the bounded (capacity 10) recent-click
buffer of an already-seeded browser process. -/
def HandleClick (states : BrowserStates) (position : Position)
    (activeElement : Option UIElement) : BrowserStates :=
  match activeElement with
  | Option.none => states
  | some element =>
    if !isBrowserWindow element then states
    else
      match lookupBrowserState states element.ProcessID with
      | some browserState =>
        let clicks := browserState.RecentClicks ++ [position]
        let clicks := if clicks.length > 10 then clicks.drop 1 else clicks
        storeBrowserState states element.ProcessID
          { browserState with RecentClicks := clicks }
      | Option.none => states

/- ------------------------------------------------------------------
Text Input Manager (`src/text_input_tracker.go`)
------------------------------------------------------------------ -/

/-- `type TextInputMethod string` constants. -/
inductive TextInputMethod where
  | Typed
  | Pasted
  | AutoFilled
  | Suggestion
  | Mixed
deriving DecidableEq, Repr

/-- `TextInputCompletedEvent` (metadata omitted). -/
structure TextInputCompletedEvent where
  TextValue : String
  FieldName : String
  FieldType : String
  InputMethod : TextInputMethod
  TypingDurationMs : Nat
  KeystrokeCount : Nat
deriving DecidableEq, Repr

/-- A per-field session, `TextInputTracker` (completion timer and mutex
omitted: the timer only schedules the completion call modelled below). -/
structure TextInputTracker where
  Element : Option UIElement
  StartTime : Nat
  LastKeystroke : Nat
  KeystrokeCount : Nat
  InitialText : String
  CurrentText : String
  InputMethod : TextInputMethod
deriving DecidableEq, Repr

/-- `getFieldName`: the element's name, or "Unknown". -/
def getFieldName (element : Option UIElement) : String :=
  match element with
  | Option.none => "Unknown"
  | some element => if element.Name = "" then "Unknown" else element.Name

/-- `getFieldType`: the element's role, or "Unknown". -/
def getFieldType (element : Option UIElement) : String :=
  match element with
  | Option.none => "Unknown"
  | some element => element.Role

/-- `completeTextInputInternal`: on completion (timer, focus change or
session end — the `reason` string is only logged and decides nothing),
re-read the field text (`finalText`, produced by the out-of-scope
accessibility content source `getCurrentText`) and emit an event exactly
when it differs from the session's initial text and is not blank after
trimming. -/
def completeTextInputInternal (tracker : TextInputTracker)
    (finalText : String) (reason : String) (now : Nat) :
    Option TextInputCompletedEvent :=
  let _ := reason
  if finalText ≠ tracker.InitialText ∧ goTrimSpace finalText ≠ "" then
    some ⟨finalText, getFieldName tracker.Element, getFieldType tracker.Element,
          tracker.InputMethod, now - tracker.StartTime, tracker.KeystrokeCount⟩
  else Option.none

/- ------------------------------------------------------------------
Dispatch / Rate Gate (`RateLimiter` in `src/unnamed/part_000`)
------------------------------------------------------------------ -/

/-- `RateLimiter`: a fixed time-window counter.  Counts are `int32` in the
source; the arithmetic below never leaves `[0, MaxEvents]` once the count
starts there, so integers model them exactly.  Times and the window size
are millisecond instants/durations on the monotonic clock, as integers so
that `now.Sub(WindowStart)` keeps Go's signed-duration semantics. -/
structure RateLimiter where
  MaxEvents : Int
  WindowSize : Int
  EventCount : Int
  WindowStart : Int
deriving DecidableEq, Repr

/-- `NewRateLimiter`: zero events counted, window starting now. -/
def NewRateLimiter (maxEvents windowSize : Int) (now : Int) : RateLimiter :=
  ⟨maxEvents, windowSize, 0, now⟩

/-- `Allow`: reset the window if it has elapsed, then admit the event iff
the counter is below the maximum. -/
def RateLimiter.Allow (rl : RateLimiter) (now : Int) : RateLimiter × Bool :=
  let rl :=
    if rl.WindowSize ≤ now - rl.WindowStart then
      { rl with EventCount := 0, WindowStart := now }
    else rl
  if rl.MaxEvents ≤ rl.EventCount then (rl, false)
  else ({ rl with EventCount := rl.EventCount + 1 }, true)

/-- Run `Allow` at each instant of a list, collecting the results. -/
def RateLimiter.run (rl : RateLimiter) : List Int → RateLimiter × List Bool
  | [] => (rl, [])
  | now :: rest =>
    let s := rl.Allow now
    let r := s.1.run rest
    (r.1, s.2 :: r.2)

/- ==================================================================
Theorems
================================================================== -/

/- -------------------- C1: text-selection classification ----------- -/

theorem HandleMouseDown_left (tst : TextSelectionTracker) (p : Position) (t : Nat) :
    tst.HandleMouseDown p .left t =
      { tst with
        ClickCount := if tst.isCloseClick p t then tst.ClickCount + 1 else 1
        LastClickTime := t
        LastClickPos := p
        IsSelecting := true
        SelectionStartPos := p
        SelectionStartTime := t
        LastMousePos := p } := by
  simp [TextSelectionTracker.HandleMouseDown]

theorem up_classify (tst : TextSelectionTracker) (p : Position) (sel : String)
    (h : tst.IsSelecting = true) :
    ((distSq tst.SelectionStartPos p < 25 ∧ tst.ClickCount ≤ 1) →
        (tst.HandleMouseUp p .left sel).2 = Option.none)
  ∧ (tst.ClickCount = 2 → sel ≠ "" →
        ((tst.HandleMouseUp p .left sel).2).map TextSelectionEvent.SelectionMethod =
          some .DoubleClick)
  ∧ (tst.ClickCount = 3 → sel ≠ "" →
        ((tst.HandleMouseUp p .left sel).2).map TextSelectionEvent.SelectionMethod =
          some .TripleClick)
  ∧ (tst.ClickCount ≠ 2 → tst.ClickCount ≠ 3 →
      25 ≤ distSq tst.SelectionStartPos p → sel ≠ "" →
        ((tst.HandleMouseUp p .left sel).2).map TextSelectionEvent.SelectionMethod =
          some .MouseDrag)
  ∧ (tst.ClickCount ≠ 2 → tst.ClickCount ≠ 3 →
      distSq tst.SelectionStartPos p < 25 →
        (tst.HandleMouseUp p .left sel).2 = Option.none)
  ∧ (sel = "" → (tst.HandleMouseUp p .left sel).2 = Option.none) := by
  refine ⟨?_, ?_, ?_, ?_, ?_, ?_⟩
  · intro hcond
    simp [TextSelectionTracker.HandleMouseUp, h, hcond.1, hcond.2]
  · intro hc hsel
    simp [TextSelectionTracker.HandleMouseUp, h, hc, hsel]
  · intro hc hsel
    simp [TextSelectionTracker.HandleMouseUp, h, hc, hsel]
  · intro hc2 hc3 hd hsel
    simp [TextSelectionTracker.HandleMouseUp, h, hc2, hc3, hsel, not_lt.mpr hd, hd]
  · intro hc2 hc3 hd
    by_cases hcc : tst.ClickCount ≤ 1
    · simp [TextSelectionTracker.HandleMouseUp, h, hd, hcc]
    · simp [TextSelectionTracker.HandleMouseUp, h, hc2, hc3, hcc, not_le.mpr hd]
  · intro hsel
    simp only [TextSelectionTracker.HandleMouseUp]
    split_ifs <;> simp_all

/-- C1.  After a primary-button `HandleMouseDown` at `p₀`, a primary-button
`HandleMouseUp` at `p` with content-source result `sel` emits no event when
the squared distance from the recorded start `p₀` to `p` is below 25 (5 px)
and the click count is at most 1; otherwise the method is double-click at
click count 2, triple-click at 3, and mouse-drag only when the count is
neither 2 nor 3 and the distance is at least 5 px; in the remaining case
(count neither 2 nor 3, distance below 5 px) and whenever the content
source returns empty text, no event is emitted. -/
theorem c1_selection_classification (tst0 : TextSelectionTracker)
    (p0 p : Position) (t0 : Nat) (sel : String) :
    (tst0.HandleMouseDown p0 .left t0).SelectionStartPos = p0 ∧
    (tst0.HandleMouseDown p0 .left t0).IsSelecting = true ∧
    (((distSq p0 p < 25 ∧ (tst0.HandleMouseDown p0 .left t0).ClickCount ≤ 1) →
        ((tst0.HandleMouseDown p0 .left t0).HandleMouseUp p .left sel).2 = Option.none)
    ∧ ((tst0.HandleMouseDown p0 .left t0).ClickCount = 2 → sel ≠ "" →
        (((tst0.HandleMouseDown p0 .left t0).HandleMouseUp p .left sel).2).map
          TextSelectionEvent.SelectionMethod = some .DoubleClick)
    ∧ ((tst0.HandleMouseDown p0 .left t0).ClickCount = 3 → sel ≠ "" →
        (((tst0.HandleMouseDown p0 .left t0).HandleMouseUp p .left sel).2).map
          TextSelectionEvent.SelectionMethod = some .TripleClick)
    ∧ ((tst0.HandleMouseDown p0 .left t0).ClickCount ≠ 2 →
       (tst0.HandleMouseDown p0 .left t0).ClickCount ≠ 3 →
       25 ≤ distSq p0 p → sel ≠ "" →
        (((tst0.HandleMouseDown p0 .left t0).HandleMouseUp p .left sel).2).map
          TextSelectionEvent.SelectionMethod = some .MouseDrag)
    ∧ ((tst0.HandleMouseDown p0 .left t0).ClickCount ≠ 2 →
       (tst0.HandleMouseDown p0 .left t0).ClickCount ≠ 3 →
       distSq p0 p < 25 →
        ((tst0.HandleMouseDown p0 .left t0).HandleMouseUp p .left sel).2 = Option.none)
    ∧ (sel = "" →
        ((tst0.HandleMouseDown p0 .left t0).HandleMouseUp p .left sel).2 = Option.none)) := by
  have hpos : (tst0.HandleMouseDown p0 .left t0).SelectionStartPos = p0 := by
    rw [HandleMouseDown_left]
  have hsel : (tst0.HandleMouseDown p0 .left t0).IsSelecting = true := by
    rw [HandleMouseDown_left]
  have h := up_classify (tst0.HandleMouseDown p0 .left t0) p sel hsel
  rw [hpos] at h
  exact ⟨hpos, hsel, h⟩

/-- C1 witness: a fresh tracker, mouse down at the origin at `t = 1000`
(click count becomes 1), release 10 px away with retrievable text `"x"`:
a mouse-drag selection event is emitted. -/
theorem c1_selection_classification_witness :
    (((NewTextSelectionTracker.HandleMouseDown ⟨0, 0⟩ .left 1000).HandleMouseUp
        ⟨10, 0⟩ .left "x").2).map TextSelectionEvent.SelectionMethod =
      some .MouseDrag := by
  have h := (c1_selection_classification NewTextSelectionTracker ⟨0, 0⟩ ⟨10, 0⟩ 1000 "x").2.2
  exact h.2.2.2.1 (by decide) (by decide) (by decide) (by decide)


/- -------------------- C10 / C5: drag-drop tracker ----------------- -/

theorem ddt_up_left_clears (ddt : DragDropTracker) (p : Position)
    (elem : Option UIElement) (now : Nat) :
    (ddt.HandleMouseUp p .left elem now).1 = ddt.clearDragState := by
  simp only [DragDropTracker.HandleMouseUp]
  rw [if_neg (by simp)]
  split_ifs <;> rfl

theorem ddt_up_emits (ddt : DragDropTracker) (p : Position)
    (elem : Option UIElement) (now : Nat)
    (h1 : ddt.IsDragging = true) (h2 : ddt.DragStartTime ≠ 0)
    (h3 : (ddt.MinDragDistance : Int) ^ 2 ≤ distSq ddt.DragStartPos p) :
    (ddt.HandleMouseUp p .left elem now).2 =
      some ⟨ddt.DragStartPos, p, ddt.DragStartElement,
            ddt.isSuccessfulDrop p elem now⟩ := by
  simp [DragDropTracker.HandleMouseUp, h1, h2, not_lt.mpr h3]

theorem ddt_success_of (ddt : DragDropTracker) (p : Position)
    (elem : Option UIElement) (now : Nat)
    (h : DragDropTracker.isDropTarget elem = true ∨
         2500 < distSq ddt.DragStartPos p ∨
         500 < now - ddt.DragStartTime) :
    ddt.isSuccessfulDrop p elem now = true := by
  rcases h with ha | hb | hc
  · have hsome : elem.isSome = true := by
      cases elem with
      | none => simp [DragDropTracker.isDropTarget] at ha
      | some e => rfl
    simp [DragDropTracker.isSuccessfulDrop, ha, hsome]
  · simp [DragDropTracker.isSuccessfulDrop, hb]
  · simp [DragDropTracker.isSuccessfulDrop, hc]

theorem listbox_isDropTarget (e : UIElement) (he : e.Role = "listbox") :
    DragDropTracker.isDropTarget (some e) = true := by
  simp only [DragDropTracker.isDropTarget, he]
  have h : (["list", "listbox", "tree", "treeitem", "document", "application",
      "pane", "window", "textbox", "editbox", "richedit", "button",
      "dropdownbutton"].any
        fun role => goToLower "listbox" == role ||
          goContains (goToLower "listbox") role) = true := by decide
  simp [h]

/-- C5.  A primary-button `HandleMouseUp` completing a confirmed drag whose
(squared) distance reaches the configured minimum emits a `DragDropEvent`
whose `Success` flag is computed by `isSuccessfulDrop`, and that flag is
true as soon as any one of the three heuristics holds: recognized
drop-target element, distance above 50 px (squared bound 2500), or
duration above 500 ms; in particular a drag from (0,0) to (0,60) onto an
element whose role is "listbox" always succeeds, whatever its duration. -/
theorem c5_drop_success (ddt : DragDropTracker) (p : Position)
    (elem : Option UIElement) (now : Nat) :
    (ddt.IsDragging = true → ddt.DragStartTime ≠ 0 →
      (ddt.MinDragDistance : Int) ^ 2 ≤ distSq ddt.DragStartPos p →
      (ddt.HandleMouseUp p .left elem now).2 =
        some ⟨ddt.DragStartPos, p, ddt.DragStartElement,
              ddt.isSuccessfulDrop p elem now⟩)
  ∧ ((DragDropTracker.isDropTarget elem = true ∨
      2500 < distSq ddt.DragStartPos p ∨
      500 < now - ddt.DragStartTime) → ddt.isSuccessfulDrop p elem now = true)
  ∧ (∀ (t0 dur : Nat) (e : UIElement), t0 ≠ 0 → e.Role = "listbox" →
      ((DragDropTracker.mk true ⟨0, 0⟩ t0 Option.none ⟨0, 0⟩ 10).HandleMouseUp
          ⟨0, 60⟩ .left (some e) dur).2.map DragDropEvent.Success = some true) := by
  refine ⟨fun h1 h2 h3 => ddt_up_emits ddt p elem now h1 h2 h3,
          fun h => ddt_success_of ddt p elem now h, ?_⟩
  intro t0 dur e ht he
  rw [ddt_up_emits (DragDropTracker.mk true ⟨0, 0⟩ t0 Option.none ⟨0, 0⟩ 10)
    ⟨0, 60⟩ (some e) dur rfl ht (by simp [distSq])]
  have hsucc := ddt_success_of (DragDropTracker.mk true ⟨0, 0⟩ t0 Option.none ⟨0, 0⟩ 10)
    ⟨0, 60⟩ (some e) dur (Or.inl (listbox_isDropTarget e he))
  simp [hsucc]

/-- C5 witness: a confirmed drag started at time 5 at the origin, released
at (0,60) on a "listbox" element after any duration, succeeds. -/
theorem c5_drop_success_witness :
    ((DragDropTracker.mk true ⟨0, 0⟩ 5 Option.none ⟨0, 0⟩ 10).HandleMouseUp
        ⟨0, 60⟩ .left (some ⟨"listbox", "files", 7, "w", "app"⟩) 6).2.map
      DragDropEvent.Success = some true :=
  (c5_drop_success (DragDropTracker.mk true ⟨0, 0⟩ 5 Option.none ⟨0, 0⟩ 10)
    ⟨0, 60⟩ (some ⟨"listbox", "files", 7, "w", "app"⟩) 6).2.2 5 6
    ⟨"listbox", "files", 7, "w", "app"⟩ (by decide) rfl

/-- C10.  Whatever branch a primary-button `HandleMouseUp` takes — emitted
event, insufficient movement, or no active drag — the resulting tracker is
exactly `clearDragState` of the old one: dragging off and start time,
start position, source element and last position zeroed; and on such a
cleared tracker `HandleMouseMove` is inert, so no move can re-enter a drag
before the next `HandleMouseDown`. -/
theorem c10_up_clears_drag_state (ddt : DragDropTracker) (p : Position)
    (elem : Option UIElement) (now : Nat) :
    (ddt.HandleMouseUp p .left elem now).1 = ddt.clearDragState ∧
    ddt.clearDragState.IsDragging = false ∧
    ddt.clearDragState.DragStartTime = 0 ∧
    ddt.clearDragState.DragStartPos = ⟨0, 0⟩ ∧
    ddt.clearDragState.DragStartElement = Option.none ∧
    ddt.clearDragState.LastDragPos = ⟨0, 0⟩ ∧
    (∀ q : Position, ddt.clearDragState.HandleMouseMove q = ddt.clearDragState) := by
  refine ⟨ddt_up_left_clears ddt p elem now, rfl, rfl, rfl, rfl, rfl, ?_⟩
  intro q
  simp [DragDropTracker.HandleMouseMove, DragDropTracker.clearDragState]

/- -------------------- C2 / C4 / C8: hotkey detector --------------- -/

theorem hd_check_cases (hd : HotkeyDetector) :
    (hd.checkForHotkeys.1 = hd ∧ hd.checkForHotkeys.2 = Option.none) ∨
    hd.checkForHotkeys.1 = hd.clearState := by
  unfold HotkeyDetector.checkForHotkeys
  by_cases h : hd.PressedKeys.length < 2
  · simp [h]
  · cases hfind : initializeHotkeyPatterns.find?
      (fun pattern => keysMatch hd.PressedKeys pattern.Keys) with
    | none => simp [h, hfind]
    | some pat => simp [h, hfind]

theorem hd_check_no_event (hd : HotkeyDetector)
    (h : hd.checkForHotkeys.2 = Option.none) : hd.checkForHotkeys.1 = hd := by
  unfold HotkeyDetector.checkForHotkeys at h ⊢
  by_cases hl : hd.PressedKeys.length < 2
  · simp [hl]
  · cases hfind : initializeHotkeyPatterns.find?
      (fun pattern => keysMatch hd.PressedKeys pattern.Keys) with
    | none => simp [hl, hfind]
    | some pat => simp [hl, hfind] at h

theorem hd_step_pressed_subset (hd : HotkeyDetector) (k : Nat) (d : Bool) (t : Nat) :
    ∀ x ∈ ((hd.HandleKeyPress k d t).1).PressedKeys, x = k ∨ x ∈ hd.PressedKeys := by
  intro x hx
  unfold HotkeyDetector.HandleKeyPress at hx
  by_cases hd' : d = true
  · subst hd'
    by_cases hmem : k ∈ hd.PressedKeys
    · simp [hmem] at hx
      exact Or.inr hx
    · simp only [hmem, if_true, if_false, ite_false, ite_true, if_neg, reduceIte] at hx
      rcases hd_check_cases
        ⟨k :: hd.PressedKeys, hd.KeyPressOrder ++ [k], t⟩ with ⟨h1, _⟩ | h1 <;>
        rw [h1] at hx
      · rcases List.mem_cons.mp hx with h | h
        · exact Or.inl h
        · exact Or.inr h
      · simp [HotkeyDetector.clearState] at hx
  · have hd'' : d = false := by
      cases d
      · rfl
      · exact absurd rfl hd'
    subst hd''
    by_cases hmem : k ∈ hd.PressedKeys
    · simp only [hmem, Bool.false_eq_true, if_false, if_true, reduceIte] at hx
      by_cases hcl : (hd.PressedKeys.erase k).isEmpty || 500 < t - hd.LastKeyTime
      · simp [hcl, HotkeyDetector.clearState] at hx
      · simp [hcl] at hx
        exact Or.inr (List.mem_of_mem_erase hx)
    · simp [hmem] at hx
      exact Or.inr hx

theorem hd_step_invariants (hd : HotkeyDetector) (k : Nat) (d : Bool) (t : Nat)
    (hp : hd.PressedKeys.Nodup) (ho : hd.KeyPressOrder.Nodup)
    (hs : ∀ x, x ∈ hd.KeyPressOrder ↔ x ∈ hd.PressedKeys) :
    ((hd.HandleKeyPress k d t).1).PressedKeys.Nodup ∧
    ((hd.HandleKeyPress k d t).1).KeyPressOrder.Nodup ∧
    (∀ x, x ∈ ((hd.HandleKeyPress k d t).1).KeyPressOrder ↔
          x ∈ ((hd.HandleKeyPress k d t).1).PressedKeys) := by
  unfold HotkeyDetector.HandleKeyPress
  by_cases hd' : d = true
  · subst hd'
    by_cases hmem : k ∈ hd.PressedKeys
    · simp only [hmem, reduceIte, if_true, ite_true]
      exact ⟨hp, ho, hs⟩
    · simp only [hmem, reduceIte, if_true, ite_true, if_false, ite_false]
      have hknotorder : k ∉ hd.KeyPressOrder := fun hk => hmem ((hs k).mp hk)
      have hp1 : (k :: hd.PressedKeys).Nodup := List.nodup_cons.mpr ⟨hmem, hp⟩
      have ho1 : (hd.KeyPressOrder ++ [k]).Nodup := by
        simp [List.nodup_append, ho, hknotorder]
      have hs1 : ∀ x, x ∈ hd.KeyPressOrder ++ [k] ↔ x ∈ k :: hd.PressedKeys := by
        intro x
        simp only [List.mem_append, List.mem_singleton, List.mem_cons, hs x]
        tauto
      rcases hd_check_cases ⟨k :: hd.PressedKeys, hd.KeyPressOrder ++ [k], t⟩ with
        ⟨h1, _⟩ | h1 <;> rw [h1]
      · exact ⟨hp1, ho1, hs1⟩
      · simp [HotkeyDetector.clearState]
  · have hd'' : d = false := by
      cases d
      · rfl
      · exact absurd rfl hd'
    subst hd''
    by_cases hmem : k ∈ hd.PressedKeys
    · simp only [hmem, Bool.false_eq_true, reduceIte, if_false, if_true, ite_true]
      have hp1 : (hd.PressedKeys.erase k).Nodup := hp.erase k
      have ho1 : (hd.KeyPressOrder.erase k).Nodup := ho.erase k
      have hs1 : ∀ x, x ∈ hd.KeyPressOrder.erase k ↔ x ∈ hd.PressedKeys.erase k := by
        intro x
        rw [ho.mem_erase_iff, hp.mem_erase_iff, hs x]
      by_cases hcl : (hd.PressedKeys.erase k).isEmpty || 500 < t - hd.LastKeyTime
      · simp only [hcl, reduceIte, if_true, ite_true]
        simp [HotkeyDetector.clearState]
      · simp only [hcl, reduceIte, if_false, ite_false]
        exact ⟨hp1, ho1, hs1⟩
    · simp only [hmem, Bool.false_eq_true, reduceIte, if_false, ite_false]
      exact ⟨hp, ho, hs⟩

theorem hd_run_invariants (calls : List (Nat × Bool × Nat)) (hd : HotkeyDetector)
    (hp : hd.PressedKeys.Nodup) (ho : hd.KeyPressOrder.Nodup)
    (hs : ∀ x, x ∈ hd.KeyPressOrder ↔ x ∈ hd.PressedKeys) :
    ((hd.run calls).1).PressedKeys.Nodup ∧
    ((hd.run calls).1).KeyPressOrder.Nodup ∧
    (∀ x, x ∈ ((hd.run calls).1).KeyPressOrder ↔
          x ∈ ((hd.run calls).1).PressedKeys) := by
  induction calls generalizing hd with
  | nil => exact ⟨hp, ho, hs⟩
  | cons call rest ih =>
    have hstep := hd_step_invariants hd call.1 call.2.1 call.2.2 hp ho hs
    simpa [HotkeyDetector.run] using
      ih (hd.HandleKeyPress call.1 call.2.1 call.2.2).1 hstep.1 hstep.2.1 hstep.2.2

theorem hd_run_pressed_subset (calls : List (Nat × Bool × Nat)) (hd : HotkeyDetector) :
    ∀ x ∈ ((hd.run calls).1).PressedKeys,
      x ∈ hd.PressedKeys ∨ x ∈ calls.map (fun c => c.1) := by
  induction calls generalizing hd with
  | nil => exact fun x hx => Or.inl hx
  | cons call rest ih =>
    intro x hx
    simp only [HotkeyDetector.run] at hx
    rcases ih (hd.HandleKeyPress call.1 call.2.1 call.2.2).1 x hx with h | h
    · rcases hd_step_pressed_subset hd call.1 call.2.1 call.2.2 x h with h' | h'
      · exact Or.inr (by simp [h'])
      · exact Or.inl h'
    · exact Or.inr (by simp [h])

theorem hd_run_downs_fresh (keys : List Nat) (t : Nat) (hd : HotkeyDetector)
    (hfresh : ∀ k ∈ keys, k ∉ hd.PressedKeys) (hnd : keys.Nodup)
    (hev : (hd.run (keys.map fun k => (k, true, t))).2 = []) :
    ((hd.run (keys.map fun k => (k, true, t))).1).PressedKeys.length =
      hd.PressedKeys.length + keys.length := by
  induction keys generalizing hd with
  | nil => simp [HotkeyDetector.run]
  | cons k rest ih =>
    have hkfresh : k ∉ hd.PressedKeys := hfresh k (List.mem_cons_self k rest)
    have hstep : hd.HandleKeyPress k true t =
        HotkeyDetector.checkForHotkeys
          ⟨k :: hd.PressedKeys, hd.KeyPressOrder ++ [k], t⟩ := by
      simp [HotkeyDetector.HandleKeyPress, hkfresh]
    simp only [List.map_cons, HotkeyDetector.run, hstep] at hev ⊢
    have hev1 : (HotkeyDetector.checkForHotkeys
        ⟨k :: hd.PressedKeys, hd.KeyPressOrder ++ [k], t⟩).2 = Option.none := by
      cases hcase : (HotkeyDetector.checkForHotkeys
          ⟨k :: hd.PressedKeys, hd.KeyPressOrder ++ [k], t⟩).2 with
      | none => rfl
      | some e => simp [hcase] at hev
    have hst : (HotkeyDetector.checkForHotkeys
        ⟨k :: hd.PressedKeys, hd.KeyPressOrder ++ [k], t⟩).1 =
        ⟨k :: hd.PressedKeys, hd.KeyPressOrder ++ [k], t⟩ :=
      hd_check_no_event _ hev1
    rw [hst] at hev ⊢
    simp only [hev1, Option.toList_none, List.nil_append] at hev
    have hfresh1 : ∀ k' ∈ rest, k' ∉ (⟨k :: hd.PressedKeys, hd.KeyPressOrder ++ [k], t⟩ :
        HotkeyDetector).PressedKeys := by
      intro k' hk'
      simp only [List.mem_cons]
      rintro (h | h)
      · exact (List.nodup_cons.mp hnd).1 (h ▸ hk')
      · exact hfresh k' (List.mem_cons_of_mem k hk') h
    have := ih (⟨k :: hd.PressedKeys, hd.KeyPressOrder ++ [k], t⟩ : HotkeyDetector)
      hfresh1 (List.nodup_cons.mp hnd).2 hev
    simp only [this]
    simp only [List.length_cons]
    omega

theorem hd_run_ups_empty (keys : List Nat) (u : Nat) (hd : HotkeyDetector)
    (hp : hd.PressedKeys.Nodup) (hsub : ∀ x ∈ hd.PressedKeys, x ∈ keys) :
    ((hd.run (keys.map fun k => (k, false, u))).1).PressedKeys = [] := by
  induction keys generalizing hd with
  | nil =>
    simp only [List.map_nil, HotkeyDetector.run]
    exact List.eq_nil_iff_forall_not_mem.mpr
      (fun x hx => List.not_mem_nil x (hsub x hx))
  | cons k rest ih =>
    simp only [List.map_cons, HotkeyDetector.run]
    by_cases hmem : k ∈ hd.PressedKeys
    · have hstep : hd.HandleKeyPress k false u =
          (if (hd.PressedKeys.erase k).isEmpty || 500 < u - hd.LastKeyTime then
            (HotkeyDetector.clearState
              { hd with PressedKeys := hd.PressedKeys.erase k
                        KeyPressOrder := hd.KeyPressOrder.erase k }, Option.none)
          else
            ({ hd with PressedKeys := hd.PressedKeys.erase k
                       KeyPressOrder := hd.KeyPressOrder.erase k }, Option.none)) := by
        simp [HotkeyDetector.HandleKeyPress, hmem]
      rw [hstep]
      by_cases hcl : (hd.PressedKeys.erase k).isEmpty || 500 < u - hd.LastKeyTime
      · simp only [hcl, reduceIte, if_true, ite_true]
        exact ih _ (by simp [HotkeyDetector.clearState])
          (by simp [HotkeyDetector.clearState])
      · simp only [hcl, reduceIte, if_false, ite_false]
        refine ih _ (hp.erase k) ?_
        intro x hx
        have hx' := (hp.mem_erase_iff).mp hx
        rcases List.mem_cons.mp (hsub x hx'.2) with h | h
        · exact absurd h hx'.1
        · exact h
    · have hstep : hd.HandleKeyPress k false u = (hd, Option.none) := by
        simp [HotkeyDetector.HandleKeyPress, hmem]
      rw [hstep]
      refine ih hd hp ?_
      intro x hx
      rcases List.mem_cons.mp (hsub x hx) with h | h
      · exact absurd (h ▸ hx) hmem
      · exact h

/-- C2 counterexample.  Two key-downs (Ctrl = 0x11, then S = 0x53) with no
intervening key-up leave the held-key set with 0 entries, not 2: the pair
matches the cataloged Ctrl+S pattern, which fires and clears all state. -/
theorem c2_counterexample_ctrl_s :
    ((NewHotkeyDetector.run ([17, 83].map fun k => (k, true, 0))).1).PressedKeys.length = 0 ∧
    ¬ ((NewHotkeyDetector.run ([17, 83].map fun k => (k, true, 0))).1).PressedKeys.length = 2 :=
  ⟨rfl, by decide⟩

/-- C2 (amended).  For a sequence of distinct key codes pressed down with no
intervening key-ups *and during which no hotkey pattern fires* (the run
emits no event), the held-key set afterwards has exactly N entries; and
after key-ups matching those key-downs the held set is empty — the latter
unconditionally, pattern matches and idle clears only hasten it. -/
theorem c2_held_set_cardinality (keys : List Nat) (t u : Nat) :
    (keys.Nodup →
      (NewHotkeyDetector.run (keys.map fun k => (k, true, t))).2 = [] →
      ((NewHotkeyDetector.run (keys.map fun k => (k, true, t))).1).PressedKeys.length =
        keys.length)
  ∧ ((((NewHotkeyDetector.run (keys.map fun k => (k, true, t))).1).run
        (keys.map fun k => (k, false, u))).1).PressedKeys = [] := by
  constructor
  · intro hnd hev
    have h := hd_run_downs_fresh keys t NewHotkeyDetector
      (fun k _ => List.not_mem_nil k) hnd hev
    simpa [NewHotkeyDetector] using h
  · have hnodup := (hd_run_invariants (keys.map fun k => (k, true, t))
      NewHotkeyDetector List.nodup_nil List.nodup_nil (by simp [NewHotkeyDetector])).1
    refine hd_run_ups_empty keys u _ hnodup ?_
    intro x hx
    rcases hd_run_pressed_subset (keys.map fun k => (k, true, t))
      NewHotkeyDetector x hx with h | h
    · exact absurd h (List.not_mem_nil x)
    · simpa using h

/-- C2 witness: keys A (0x41) and B (0x42) — no two-key pattern contains
them — leave 2 held entries after their downs; after the ups the set is
empty. -/
theorem c2_held_set_cardinality_witness :
    ((NewHotkeyDetector.run ([65, 66].map fun k => (k, true, 0))).1).PressedKeys.length = 2 ∧
    ((((NewHotkeyDetector.run ([65, 66].map fun k => (k, true, 0))).1).run
        ([65, 66].map fun k => (k, false, 0))).1).PressedKeys = [] :=
  ⟨(c2_held_set_cardinality [65, 66] 0 0).1 (by decide) (by decide),
   (c2_held_set_cardinality [65, 66] 0 0).2⟩

/-- C8.  In every state reachable from a fresh detector through any
sequence of `HandleKeyPress` calls — fresh-key insertion, key-up removal,
the clear on a pattern match and the clear when the held set empties or
the 500 ms idle window elapses — a key code appears in the press-order
list iff it is in the held-key set. -/
theorem c8_press_order_sync (calls : List (Nat × Bool × Nat)) (k : Nat) :
    k ∈ ((NewHotkeyDetector.run calls).1).KeyPressOrder ↔
    k ∈ ((NewHotkeyDetector.run calls).1).PressedKeys :=
  (hd_run_invariants calls NewHotkeyDetector List.nodup_nil List.nodup_nil
    (by simp [NewHotkeyDetector])).2.2 k

/-- C4 counterexample.  With Ctrl and S held (no key-ups anywhere in the
sequence), repeated key-down calls of the two keys re-fire the combination:
four downs emit the Ctrl+S event twice, so a later `HandleKeyPress` call
made while both keys remain held does emit an additional event. -/
theorem c4_counterexample_refire :
    (NewHotkeyDetector.run
        [(17, true, 1), (83, true, 2), (17, true, 3), (83, true, 4)]).2 =
      [⟨"Ctrl+S", "Save", false⟩, ⟨"Ctrl+S", "Save", false⟩] := by
  decide

/-- C4 (amended).  From an empty detector, key-downs of Ctrl (0x11) and S
(0x53) in either order emit exactly one `HotkeyEvent` with combination
"Ctrl+S" and action "Save", and the single next key-down call of either
key emits no additional event, because the held-key state is cleared on
the first match.  (A subsequent repeated down of the *other* key re-fires;
see the counterexample.) -/
theorem c4_ctrl_s_single_fire (a b c t1 t2 t3 : Nat)
    (hab : (a = 17 ∧ b = 83) ∨ (a = 83 ∧ b = 17)) (hc : c = a ∨ c = b) :
    (NewHotkeyDetector.run [(a, true, t1), (b, true, t2)]).2 =
      [⟨"Ctrl+S", "Save", false⟩] ∧
    (((NewHotkeyDetector.run [(a, true, t1), (b, true, t2)]).1).HandleKeyPress
        c true t3).2 = Option.none := by
  rcases hab with ⟨ha, hb⟩ | ⟨ha, hb⟩ <;> subst ha <;> subst hb <;>
    rcases hc with hc | hc <;> subst hc <;> exact ⟨rfl, rfl⟩

/-- C4 witness: the Ctrl-then-S instance at concrete times. -/
theorem c4_ctrl_s_single_fire_witness :
    (NewHotkeyDetector.run [(17, true, 1), (83, true, 2)]).2 =
      [⟨"Ctrl+S", "Save", false⟩] ∧
    (((NewHotkeyDetector.run [(17, true, 1), (83, true, 2)]).1).HandleKeyPress
        17 true 3).2 = Option.none :=
  c4_ctrl_s_single_fire 17 83 17 1 2 3 (Or.inl ⟨rfl, rfl⟩) (Or.inl rfl)

/- -------------------- C6: text-input completion ------------------- -/

/-- C6.  Completing a text-input session (whatever the reason: timeout,
focus change or session end — the reason string decides nothing) emits a
`TextInputCompletedEvent` iff the re-read final field text differs from the
text captured at session start and is non-blank after trimming; an
unchanged or blank final text emits nothing (and there is no error path). -/
theorem c6_completion_iff_changed_nonblank (tracker : TextInputTracker)
    (finalText reason : String) (now : Nat) :
    (completeTextInputInternal tracker finalText reason now).isSome = true ↔
    (finalText ≠ tracker.InitialText ∧ goTrimSpace finalText ≠ "") := by
  unfold completeTextInputInternal
  by_cases h : finalText ≠ tracker.InitialText ∧ goTrimSpace finalText ≠ ""
  · simp [h]
  · rw [if_neg h]
    simpa using h

/- -------------------- C9: rate gate ------------------------------- -/

theorem rl_run_in_window (times : List Int) (rl : RateLimiter)
    (hw : ∀ s ∈ times, s - rl.WindowStart < rl.WindowSize)
    (hcnt : rl.EventCount ≤ rl.MaxEvents) :
    (rl.run times).1.WindowStart = rl.WindowStart ∧
    (rl.run times).1.MaxEvents = rl.MaxEvents ∧
    (rl.run times).1.EventCount = rl.EventCount + ((rl.run times).2.count true : Int) ∧
    (rl.run times).1.EventCount ≤ rl.MaxEvents := by
  induction times generalizing rl with
  | nil => simp [RateLimiter.run, hcnt]
  | cons s rest ih =>
    have hs : ¬ rl.WindowSize ≤ s - rl.WindowStart :=
      not_le.mpr (hw s (List.mem_cons_self s rest))
    by_cases hfull : rl.MaxEvents ≤ rl.EventCount
    · have hstep : rl.Allow s = (rl, false) := by
        simp [RateLimiter.Allow, hs, hfull]
      have := ih rl (fun x hx => hw x (List.mem_cons_of_mem s hx)) hcnt
      simp only [RateLimiter.run, hstep] at *
      refine ⟨this.1, this.2.1, ?_, this.2.2.2⟩
      simpa [List.count_cons] using this.2.2.1
    · have hstep : rl.Allow s = ({ rl with EventCount := rl.EventCount + 1 }, true) := by
        simp [RateLimiter.Allow, hs, hfull]
      have hcnt1 : rl.EventCount + 1 ≤ rl.MaxEvents := by omega
      obtain ⟨e1, e2, e3, e4⟩ := ih { rl with EventCount := rl.EventCount + 1 }
        (fun x hx => hw x (List.mem_cons_of_mem s hx)) hcnt1
      simp only [RateLimiter.run, hstep]
      refine ⟨by simpa using e1, by simpa using e2, ?_, by simpa using e4⟩
      rw [e3]
      simp only [List.count_cons_self]
      push_cast
      omega

/-- C9.  The rate gate: within one window (all call instants before the
window start plus the window size, counter starting at zero) at most
`MaxEvents` calls return true and no window reset occurs; a call finding
the counter at the cap inside the window returns false and changes
nothing; and once the elapsed time since the window start reaches the
window size, the next call resets the window and is permitted again
(provided the maximum is positive). -/
theorem c9_rate_gate (maxEvents W ws now : Int) (times : List Int)
    (rl : RateLimiter) :
    (0 ≤ maxEvents → (∀ s ∈ times, s - ws < W) →
      (((RateLimiter.mk maxEvents W 0 ws).run times).2.count true : Int) ≤ maxEvents ∧
      ((RateLimiter.mk maxEvents W 0 ws).run times).1.WindowStart = ws)
  ∧ (now - rl.WindowStart < rl.WindowSize → rl.MaxEvents ≤ rl.EventCount →
      rl.Allow now = (rl, false))
  ∧ (rl.WindowSize ≤ now - rl.WindowStart → 0 < rl.MaxEvents →
      rl.Allow now = ({ rl with EventCount := 1, WindowStart := now }, true)) := by
  refine ⟨?_, ?_, ?_⟩
  · intro hmax hw
    have h := rl_run_in_window times (RateLimiter.mk maxEvents W 0 ws) hw (by simpa using hmax)
    refine ⟨?_, h.1⟩
    have := h.2.2.1
    have hle := h.2.2.2
    simp only [this] at hle
    simpa using hle
  · intro h1 h2
    simp [RateLimiter.Allow, not_le.mpr h1, h2]
  · intro h1 h2
    have : ¬ rl.MaxEvents ≤ (0 : Int) := not_le.mpr h2
    simp [RateLimiter.Allow, h1, this]

/-- C9 witness: max 2 events per 100 ms window starting at 0; calls at
5, 6, 7 admit exactly two; a full-window call at 8 is refused; the call at
100 resets the window and is admitted. -/
theorem c9_rate_gate_witness :
    (((RateLimiter.mk 2 100 0 0).run [5, 6, 7]).2.count true : Int) ≤ 2 ∧
    (RateLimiter.mk 2 100 2 0).Allow 8 = (RateLimiter.mk 2 100 2 0, false) ∧
    (RateLimiter.mk 2 100 2 0).Allow 100 = (RateLimiter.mk 2 100 1 100, true) :=
  ⟨((c9_rate_gate 2 100 0 8 [5, 6, 7] (RateLimiter.mk 2 100 2 0)).1
      (by decide) (by decide)).1,
   (c9_rate_gate 2 100 0 8 [5, 6, 7] (RateLimiter.mk 2 100 2 0)).2.1
      (by decide) (by decide),
   (c9_rate_gate 2 100 0 100 [5, 6, 7] (RateLimiter.mk 2 100 2 0)).2.2
      (by decide) (by decide)⟩

/- -------------------- C7 / C3: browser tab tracker ---------------- -/

theorem lookup_cons (p : Nat × BrowserState) (l : List (Nat × BrowserState))
    (pid : Nat) :
    lookupBrowserState (p :: l) pid =
      if p.1 = pid then some p.2 else lookupBrowserState l pid := by
  by_cases h : p.1 = pid <;>
    simp [lookupBrowserState, List.find?_cons, h]

theorem lookup_store (states : BrowserStates) (pid : Nat) (bs : BrowserState) :
    lookupBrowserState (storeBrowserState states pid bs) pid = some bs := by
  induction states with
  | nil => simp [storeBrowserState, lookupBrowserState, List.find?]
  | cons p rest ih =>
    by_cases h : p.1 = pid
    · simp [storeBrowserState, h, lookup_cons]
    · rw [storeBrowserState]
      simp only [h, ite_false, reduceIte]
      rw [lookup_cons]
      simp [h, ih]

/-- C7.  The first `HandleWindowChange` observation of a browser window for
a process seeds that process's state (title, extracted URL, URL-change time
`now`) and emits nothing; a later observation for the same process whose
title yields a non-empty extracted URL different from the stored one emits
exactly one `BrowserTabNavigationEvent` with the stored URL as `FromURL`,
the extracted URL as `ToURL`, and dwell time `now` minus the stored
last-URL-change instant. -/
theorem c7_browser_seed_then_navigate (states : BrowserStates) (e : UIElement)
    (now : Nat) :
    (isBrowserWindow e = true → lookupBrowserState states e.ProcessID = Option.none →
      (HandleWindowChange states (some e) now).2 = Option.none ∧
      lookupBrowserState (HandleWindowChange states (some e) now).1 e.ProcessID =
        some ⟨e.ProcessID, e.WindowTitle, extractURL e.WindowTitle, now, 1, 0, [], []⟩)
  ∧ (∀ bs : BrowserState, isBrowserWindow e = true →
      lookupBrowserState states e.ProcessID = some bs →
      extractURL e.WindowTitle ≠ "" → extractURL e.WindowTitle ≠ bs.CurrentURL →
      (HandleWindowChange states (some e) now).2 =
        some ⟨.Switched, determineNavigationMethod bs, extractURL e.WindowTitle,
              bs.CurrentURL, now - bs.LastURLChange⟩) := by
  constructor
  · intro hbw hlook
    simp [HandleWindowChange, hbw, hlook, lookup_store]
  · intro bs hbw hlook hne hdiff
    simp [HandleWindowChange, hbw, hlook, hne, hdiff]

/-- C7 witness: the spec's example.  Process 1234 first seen with title
"Example — Chrome" (no URL in the title) seeds state and emits nothing;
the later title "https://example.com/page — Chrome" at time 1500 emits a
navigation event from the stored empty URL to the extracted URL with dwell
time 500 ms. -/
theorem c7_browser_seed_then_navigate_witness :
    (HandleWindowChange []
        (some ⟨"", "", 1234, "Example — Chrome", "chrome"⟩) 1000).2 = Option.none ∧
    (HandleWindowChange
        (HandleWindowChange []
          (some ⟨"", "", 1234, "Example — Chrome", "chrome"⟩) 1000).1
        (some ⟨"", "", 1234, "https://example.com/page — Chrome", "chrome"⟩) 1500).2 =
      some ⟨.Switched, .Other, "https://example.com/page", "", 500⟩ := by
  constructor
  · exact ((c7_browser_seed_then_navigate []
      ⟨"", "", 1234, "Example — Chrome", "chrome"⟩ 1000).1 (by decide) rfl).1
  · exact ((c7_browser_seed_then_navigate
      (HandleWindowChange []
        (some ⟨"", "", 1234, "Example — Chrome", "chrome"⟩) 1000).1
      ⟨"", "", 1234, "https://example.com/page — Chrome", "chrome"⟩ 1500).2
      ⟨1234, "Example — Chrome", "", 1000, 1, 0, [], []⟩
      (by decide) (by decide) (by decide) (by decide)).trans (by decide)

theorem findSome_of_find {α β : Type} (f : α → Option β) (l : List α) (a : α) (b : β)
    (hfind : l.find? (fun x => (f x).isSome) = some a) (hf : f a = some b) :
    l.findSome? f = some b := by
  induction l with
  | nil => simp at hfind
  | cons x rest ih =>
    rw [List.findSome?_cons]
    cases hx : f x with
    | some v =>
      have hxa : x = a := by simpa [List.find?_cons, hx] using hfind
      subst hxa
      rw [hf] at hx
      simp [hx]
    | none =>
      have hrest : rest.find? (fun x => (f x).isSome) = some a := by
        simpa [List.find?_cons, hx] using hfind
      simpa using ih hrest

theorem findSome_of_all_none {α β : Type} (f : α → Option β) (l : List α)
    (h : ∀ x ∈ l, f x = Option.none) : l.findSome? f = Option.none := by
  induction l with
  | nil => simp
  | cons x rest ih =>
    rw [List.findSome?_cons, h x (List.mem_cons_self x rest)]
    exact ih (fun y hy => h y (List.mem_cons_of_mem x hy))

/-- C3 (amended).  The method of every navigation event `HandleWindowChange`
emits for a process is `determineNavigationMethod` of that process's prior
state, which scans the recent-hotkey buffer *in buffer order* and takes the
group (new-tab / close-tab / tab-cycle / address-bar) of the first buffered
hotkey matching any group — not the four groups in priority order across
the buffer; when no buffered hotkey matches any group, it falls back to
tab-click when the recent-click buffer is non-empty and to other
otherwise. -/
theorem c3_navigation_method (states : BrowserStates) (e : UIElement)
    (now : Nat) (bs : BrowserState) :
    ((isBrowserWindow e = true → lookupBrowserState states e.ProcessID = some bs →
      extractURL e.WindowTitle ≠ "" → extractURL e.WindowTitle ≠ bs.CurrentURL →
      ((HandleWindowChange states (some e) now).2.map
          BrowserTabNavigationEvent.Method) = some (determineNavigationMethod bs)))
  ∧ (∀ (h : String) (m : TabNavigationMethod),
      bs.RecentHotkeys.find? (fun x => (classifyNavHotkey x).isSome) = some h →
      classifyNavHotkey h = some m → determineNavigationMethod bs = m)
  ∧ ((∀ h ∈ bs.RecentHotkeys, classifyNavHotkey h = Option.none) →
      determineNavigationMethod bs =
        (if bs.RecentClicks.length > 0 then .TabClick else .Other)) := by
  refine ⟨?_, ?_, ?_⟩
  · intro hbw hlook hne hdiff
    simp [HandleWindowChange, hbw, hlook, hne, hdiff]
  · intro h m hfind hcl
    unfold determineNavigationMethod
    rw [findSome_of_find classifyNavHotkey bs.RecentHotkeys h m hfind hcl]
  · intro hall
    unfold determineNavigationMethod
    rw [findSome_of_all_none classifyNavHotkey bs.RecentHotkeys hall]

/-- C3 counterexample.  Buffer order beats the claimed group priority: after
hotkeys "Ctrl+L" then "Ctrl+T" are buffered for process 1234, the emitted
navigation event's method is address-bar (the first buffered hotkey's
group), while the claimed new-tab-first priority across the buffer would
give the new-tab method. -/
theorem c3_counterexample_buffer_order :
    ((HandleWindowChange
        (HandleHotkey
          (HandleHotkey
            (HandleWindowChange []
              (some ⟨"", "", 1234, "Example — Chrome", "chrome"⟩) 1000).1
            "Ctrl+L" (some ⟨"", "", 1234, "Example — Chrome", "chrome"⟩))
          "Ctrl+T" (some ⟨"", "", 1234, "Example — Chrome", "chrome"⟩))
        (some ⟨"", "", 1234, "https://example.com/page — Chrome", "chrome"⟩)
        2000).2.map BrowserTabNavigationEvent.Method) =
      some TabNavigationMethod.AddressBar ∧
    lookupBrowserState
      (HandleHotkey
        (HandleHotkey
          (HandleWindowChange []
            (some ⟨"", "", 1234, "Example — Chrome", "chrome"⟩) 1000).1
          "Ctrl+L" (some ⟨"", "", 1234, "Example — Chrome", "chrome"⟩))
        "Ctrl+T" (some ⟨"", "", 1234, "Example — Chrome", "chrome"⟩)) 1234 =
      some ⟨1234, "Example — Chrome", "", 1000, 1, 0, ["Ctrl+L", "Ctrl+T"], []⟩ ∧
    navMethodSpecPriority
      ⟨1234, "Example — Chrome", "", 1000, 1, 0, ["Ctrl+L", "Ctrl+T"], []⟩ =
      TabNavigationMethod.NewTabButton ∧
    TabNavigationMethod.AddressBar ≠ TabNavigationMethod.NewTabButton := by
  exact ⟨by decide, by decide, by decide, by decide⟩

/-- C3 witness: a state whose buffer holds only "Ctrl+W" yields the
close-button method for the emitted event, and with an all-unrecognized
buffer the fallback is tab-click exactly when clicks exist. -/
theorem c3_navigation_method_witness :
    ((HandleWindowChange
        [(7, ⟨7, "t — Chrome", "", 40, 1, 0, ["Ctrl+W"], []⟩)]
        (some ⟨"", "", 7, "https://a.io — Chrome", "chrome"⟩) 90).2.map
      BrowserTabNavigationEvent.Method) = some TabNavigationMethod.CloseButton ∧
    determineNavigationMethod ⟨7, "", "", 0, 1, 0, ["F9"], [⟨1, 2⟩]⟩ =
      TabNavigationMethod.TabClick := by
  constructor
  · have h := (c3_navigation_method
      [(7, ⟨7, "t — Chrome", "", 40, 1, 0, ["Ctrl+W"], []⟩)]
      ⟨"", "", 7, "https://a.io — Chrome", "chrome"⟩ 90
      ⟨7, "t — Chrome", "", 40, 1, 0, ["Ctrl+W"], []⟩).1
      (by decide) (by decide) (by decide) (by decide)
    exact h.trans (by decide)
  · exact ((c3_navigation_method [] ⟨"", "", 7, "", ""⟩ 0
      ⟨7, "", "", 0, 1, 0, ["F9"], [⟨1, 2⟩]⟩).2.2 (by decide)).trans (by decide)
